import Mathlib

/-!
# Test-orchestration core of `restful-api-test-suite`: shallow embedding

This file embeds the pure logic of the repository's test-orchestration
helpers and settles the specification's claims about them:

* `APITestUtils.createPerformanceMetrics` (metrics summary over timing
  samples, the spec's `MetricsAggregator.summarize`);
* `APITestUtils.validateJSONStructure` (required-key validation, part of the
  spec's `ResponseValidator.validate`);
* `APITestUtils.waitForCondition` (the spec's `ConditionPoller.pollUntil`);
* `TestHelpers.retry` (the spec's `RetryPolicy.runWithRetry`);
* `BaseAPIClient.buildURL` and the `ProductsAPI` endpoint it serves.

JavaScript numbers are modelled as rationals (`ℚ`); the JavaScript values
`undefined` and `NaN` arising from out-of-range reads and `0/0` are modelled
by `Option.none` in the relevant result fields.  Asynchronous actions and
predicates are modelled as functions from the invocation index to the
outcome of that invocation; timing (`sleep`, `Date.now`) is abstracted to
the iteration count times the configured interval.
-/

namespace APITestUtils

/-- Result record of `createPerformanceMetrics`.  `none` models the
JavaScript values `undefined` (for `min`/`max`/`median` read off an empty
array) and `NaN` (for `avg = 0/0` on an empty array). -/
structure PerformanceMetrics where
  min : Option ℚ
  max : Option ℚ
  avg : Option ℚ
  median : Option ℚ
deriving Repr, DecidableEq

/-- `APITestUtils.createPerformanceMetrics(responseTimes)`.

`responseTimes.sort((a, b) => a - b)` sorts the caller's array **in place**
and returns the same array, so after the call the caller's array holds the
sorted contents; the second component of the result is the content of the
caller's array after the call (explicit state passing for the mutation).
`sorted[0]`, `sorted[sorted.length - 1]` and
`sorted[Math.floor(sorted.length / 2)]` are `undefined` (`none`) on an empty
array, and `sum / responseTimes.length` is `NaN` (`none`) there. -/
def createPerformanceMetrics (responseTimes : List ℚ) :
    PerformanceMetrics × List ℚ :=
  let sorted := responseTimes.insertionSort (· ≤ ·)
  let sum := sorted.foldl (· + ·) 0
  ({ min := sorted.head?
     max := sorted.getLast?
     avg :=
       if responseTimes.length = 0 then none
       else some (sum / (responseTimes.length : ℚ))
     median := sorted.get? (sorted.length / 2) }, sorted)

/-- `APITestUtils.validateJSONStructure(response, expectedKeys)`, with the
response body abstracted to the list of keys it actually has.  The source
loops over `expectedKeys` and calls
`expect(body, msg).toHaveProperty(key)`, which **throws** an assertion
error on the first missing key (modelled by `Except.error` carrying the
source's message string) and so never reaches the later keys. -/
def validateJSONStructure (bodyKeys : List String) :
    List String → Except String Unit
  | [] => .ok ()
  | key :: rest =>
    if key ∈ bodyKeys then validateJSONStructure bodyKeys rest
    else .error ("Missing key: " ++ key)

/-- Outcome of one evaluation of the polled predicate: it resolves `true`,
resolves `false`, or rejects with an error. -/
inductive CondResult (ε : Type) where
  | isTrue
  | isFalse
  | threw (e : ε)
deriving Repr, DecidableEq

/-- Outcome of `waitForCondition`: normal return, the generic
`Error` thrown after the timeout (carrying only the timeout value — the
source message is the interpolation of `timeout` into a fixed template,
with no reference to any predicate-thrown error), or an uncaught predicate
exception propagating out of the loop. -/
inductive PollOutcome (ε : Type) where
  | ok
  | conditionNotMet (timeout : Nat)
  | propagated (e : ε)
deriving Repr, DecidableEq

/-- Loop of `waitForCondition`.  `k` counts completed sleep intervals, so
the elapsed time `Date.now() - startTime` at the k-th guard check is
`k * interval` (predicate evaluation itself is abstracted as instantaneous).
The source has **no** `try`/`catch` around `await condition()`: a rejection
propagates out of the loop at once.  The `fuel` argument only makes the
recursion structural; `waitForCondition` supplies enough fuel for every
terminating run (any `interval ≥ 1`). -/
def pollGo (cond : Nat → CondResult ε) (timeout interval : Nat) :
    Nat → Nat → Option (PollOutcome ε)
  | 0, _ => none
  | fuel + 1, k =>
    if k * interval < timeout then
      match cond k with
      | .isTrue => some .ok
      | .isFalse => pollGo cond timeout interval fuel (k + 1)
      | .threw e => some (.propagated e)
    else some (.conditionNotMet timeout)

/-- `APITestUtils.waitForCondition(condition, timeout, interval)`, with the
predicate modelled as a function from the evaluation index to that
evaluation's outcome. -/
def waitForCondition (cond : Nat → CondResult ε) (timeout interval : Nat) :
    Option (PollOutcome ε) :=
  pollGo cond timeout interval (timeout + 1) 0

end APITestUtils

namespace TestHelpers

/-- Loop of `TestHelpers.retry`.  `remaining` is the number of loop
iterations still allowed (`maxAttempts - attempt + 1` in the source's
1-based counting), `attempt` the 1-based index of the next invocation,
`lastError` the source's `lastError` variable (`none` is the JavaScript
`undefined` it is initialized to), `count` the number of invocations of the
action performed so far.  When the loop ends without a success the source
executes `throw lastError`, rethrowing the raw last error — or throwing
`undefined` when the loop body never ran. -/
def retryGo (act : Nat → Except ε α) :
    Nat → Nat → Option ε → Nat → Except (Option ε) α × Nat
  | 0, _, lastError, count => (.error lastError, count)
  | remaining + 1, attempt, lastError, count =>
    match act attempt with
    | .ok v => (.ok v, count + 1)
    | .error e => retryGo act remaining (attempt + 1) (some e) (count + 1)

/-- `TestHelpers.retry(action, maxAttempts, delayMs)`.  The action is
modelled as a function from the 1-based attempt index to that attempt's
outcome; the result is the final outcome paired with the number of times
the action was invoked.  The `delayMs` sleep between failed attempts has no
observable effect in this model and is omitted. -/
def retry (act : Nat → Except ε α) (maxAttempts : Nat) :
    Except (Option ε) α × Nat :=
  retryGo act maxAttempts 1 none 0

end TestHelpers

namespace BaseAPIClient

/-- `new URLSearchParams(params).toString()` on a JavaScript object
literal: the entries are emitted as `key=value` joined by `&`, in the
object's insertion order (JavaScript string-keyed property order).
Percent-encoding of reserved characters is not modelled: the claims checked
here concern only the ordering and the `?`-structure of the result, on
alphanumeric inputs. -/
def urlSearchParamsToString (params : List (String × String)) : String :=
  String.intercalate "&" (params.map fun p => p.1 ++ "=" ++ p.2)

/-- `BaseAPIClient.buildURL(endpoint, params)`: concatenates `baseURL` and
`endpoint`, then — whenever a params object was supplied — unconditionally
appends `?` followed by the serialized parameters, with no check whether
`endpoint` already contains a `?`. -/
def buildURL (baseURL endpoint : String)
    (params : Option (List (String × String))) : String :=
  match params with
  | none => baseURL ++ endpoint
  | some ps => baseURL ++ endpoint ++ "?" ++ urlSearchParamsToString ps

/-- Spec-side serializer for the refinement comparison of claim C8, after
the spec's words "Query parameters are serialized deterministically (stable
key ordering)": it orders the entries by key (stably) before joining, so
its output depends only on the mapping, not on insertion order. -/
def specStableKeyOrderSerialize (params : List (String × String)) : String :=
  urlSearchParamsToString (params.insertionSort (fun p q => p.1 ≤ q.1))

end BaseAPIClient

namespace ProductsAPI

/-- The URL produced by `ProductsAPI.getAllProducts()` (no arguments): the
source calls `this.get('/index.php?route=api/product', { params: ... })`
with the default parameter object `{ limit: 20, start: 0,
sort: 'p.sort_order', order: 'asc' }`, in that insertion order, and `get`
delegates URL construction to `BaseAPIClient.buildURL`. -/
def getAllProductsURL (baseURL : String) : String :=
  BaseAPIClient.buildURL baseURL "/index.php?route=api/product"
    (some [("limit", "20"), ("start", "0"),
           ("sort", "p.sort_order"), ("order", "asc")])

end ProductsAPI

/-! ## Helper lemmas about the retry loop -/

namespace TestHelpers

theorem retryGo_count_le (act : Nat → Except ε α) (remaining : Nat) :
    ∀ (attempt : Nat) (lastError : Option ε) (count : Nat),
      (retryGo act remaining attempt lastError count).2 ≤ count + remaining := by
  induction remaining with
  | zero => intro a l c; simp [retryGo]
  | succ n ih =>
    intro a l c
    cases h : act a with
    | ok v => simp [retryGo, h]
    | error e =>
      simpa [retryGo, h] using le_trans (ih (a + 1) (some e) (c + 1)) (by omega)

theorem retryGo_succeeds (act : Nat → Except ε α) (v : α) :
    ∀ (j remaining attempt : Nat) (lastError : Option ε) (count : Nat),
      j < remaining →
      (∀ i, i < j → ∃ e, act (attempt + i) = .error e) →
      act (attempt + j) = .ok v →
      retryGo act remaining attempt lastError count = (.ok v, count + (j + 1)) := by
  intro j
  induction j with
  | zero =>
    intro rem a l c hlt hfail hok
    obtain ⟨m, rfl⟩ : ∃ m, rem = m + 1 := ⟨rem - 1, by omega⟩
    rw [Nat.add_zero] at hok
    simp [retryGo, hok]
  | succ j ih =>
    intro rem a l c hlt hfail hok
    obtain ⟨m, rfl⟩ : ∃ m, rem = m + 1 := ⟨rem - 1, by omega⟩
    obtain ⟨e, he⟩ := hfail 0 (by omega)
    rw [Nat.add_zero] at he
    have hstep : retryGo act (m + 1) a l c = retryGo act m (a + 1) (some e) (c + 1) := by
      simp [retryGo, he]
    have hf : ∀ i, i < j → ∃ e, act (a + 1 + i) = .error e := by
      intro i hi
      have := hfail (i + 1) (by omega)
      rwa [show a + (i + 1) = a + 1 + i by omega] at this
    have hok' : act (a + 1 + j) = .ok v := by
      rwa [show a + (j + 1) = a + 1 + j by omega] at hok
    rw [hstep, ih m (a + 1) (some e) (c + 1) (by omega) hf hok',
      show c + 1 + (j + 1) = c + (j + 1 + 1) by omega]

theorem retryGo_all_fail (act : Nat → Except ε α) :
    ∀ (remaining attempt : Nat) (lastError : Option ε) (count : Nat),
      1 ≤ remaining →
      (∀ i, i < remaining → ∃ e, act (attempt + i) = .error e) →
      ∃ e, act (attempt + (remaining - 1)) = .error e ∧
        retryGo act remaining attempt lastError count =
          (.error (some e), count + remaining) := by
  intro rem
  induction rem with
  | zero => intro a l c h; omega
  | succ m ih =>
    intro a l c _ hfail
    obtain ⟨e, he⟩ := hfail 0 (by omega)
    rw [Nat.add_zero] at he
    by_cases hm : m = 0
    · subst hm
      exact ⟨e, by simpa using he, by simp [retryGo, he]⟩
    · have hf : ∀ i, i < m → ∃ e, act (a + 1 + i) = .error e := by
        intro i hi
        have := hfail (i + 1) (by omega)
        rwa [show a + (i + 1) = a + 1 + i by omega] at this
      obtain ⟨e', he', hgo⟩ := ih (a + 1) (some e) (c + 1) (by omega) hf
      refine ⟨e', ?_, ?_⟩
      · rwa [show a + (m + 1 - 1) = a + 1 + (m - 1) by omega]
      · rw [show retryGo act (m + 1) a l c = retryGo act m (a + 1) (some e) (c + 1) by
          simp [retryGo, he]]
        rw [hgo, show c + 1 + m = c + (m + 1) by omega]

end TestHelpers

/-! ## Claims about `TestHelpers.retry` (C2, C5, C10) -/

/-- C2: `TestHelpers.retry` with `maxAttempts = N` invokes the action at most
N times; if the action fails on exactly its first K invocations (K < N) and
succeeds on the next, the call returns that success having invoked the action
exactly K + 1 times; and with `maxAttempts = 1` the action is invoked exactly
once, with no retry regardless of the failure. -/
theorem TestHelpers.retry_attempt_semantics (act : Nat → Except ε α)
    (N K : Nat) (v : α)
    (hK : K < N)
    (hfail : ∀ i, 1 ≤ i → i ≤ K → ∃ e, act i = .error e)
    (hsucc : act (K + 1) = .ok v) :
    (∀ a : Nat → Except ε α, (TestHelpers.retry a N).2 ≤ N) ∧
      TestHelpers.retry act N = (.ok v, K + 1) ∧
      (∀ a : Nat → Except ε α, (TestHelpers.retry a 1).2 = 1) := by
  refine ⟨?_, ?_, ?_⟩
  · intro a
    simpa using TestHelpers.retryGo_count_le a N 1 none 0
  · have hf : ∀ i, i < K → ∃ e, act (1 + i) = .error e := by
      intro i hi
      exact hfail (1 + i) (by omega) (by omega)
    have hok : act (1 + K) = .ok v := by rwa [Nat.add_comm] at hsucc
    have := TestHelpers.retryGo_succeeds act v K N 1 none 0 hK hf hok
    rwa [Nat.zero_add] at this
  · intro a
    unfold TestHelpers.retry
    cases h : a 1 with
    | ok w => simp [TestHelpers.retryGo, h]
    | error e => simp [TestHelpers.retryGo, h]

/-- C2 witness: an action that fails on attempt 1 and succeeds on attempt 2,
retried with `maxAttempts = 3`, returns the success after exactly 2
invocations. -/
theorem TestHelpers.retry_attempt_semantics_witness :
    TestHelpers.retry
        (fun i => if i = 1 then (Except.error "e1" : Except String Nat)
                  else .ok 42) 3 =
      (.ok 42, 2) :=
  (TestHelpers.retry_attempt_semantics
      (fun i => if i = 1 then (Except.error "e1" : Except String Nat)
                else .ok 42)
      3 1 42 (by omega)
      (fun i h1 h2 => by
        have hi : i = 1 := le_antisymm h2 h1
        subst hi
        exact ⟨"e1", rfl⟩)
      rfl).2.1

/-- C5 counterexample: with an action that always rejects with `"boom"`, the
value thrown after exhausting 2 attempts and after exhausting 3 attempts is
the **same** raw error `"boom"` (`Except.error (some "boom")`): the propagated
failure is the raw last error unwrapped, carrying no wrapper type and no
attempt count (it cannot, being identical for both attempt counts). -/
theorem TestHelpers.retry_exhausted_cex :
    TestHelpers.retry (fun _ => (Except.error "boom" : Except String Nat)) 2 =
        (.error (some "boom"), 2) ∧
      TestHelpers.retry (fun _ => (Except.error "boom" : Except String Nat)) 3 =
        (.error (some "boom"), 3) :=
  ⟨rfl, rfl⟩

/-- C5 amended: whenever every one of the `maxAttempts = N ≥ 1` attempts
fails, `TestHelpers.retry` always fails (never returns normally), propagating
the **raw** last observed error unwrapped — `throw lastError` rethrows the
error of attempt N itself, with no `RetryExhaustedError` wrapper and no
attempt count attached — after invoking the action exactly N times. -/
theorem TestHelpers.retry_exhausted_raw_error (act : Nat → Except ε α)
    (N : Nat) (hN : 1 ≤ N)
    (hfail : ∀ i, 1 ≤ i → i ≤ N → ∃ e, act i = .error e) :
    ∃ e, act N = .error e ∧
      TestHelpers.retry act N = (.error (some e), N) := by
  have hf : ∀ i, i < N → ∃ e, act (1 + i) = .error e := by
    intro i hi
    exact hfail (1 + i) (by omega) (by omega)
  obtain ⟨e, he, hgo⟩ := TestHelpers.retryGo_all_fail act N 1 none 0 hN hf
  refine ⟨e, ?_, ?_⟩
  · rwa [show 1 + (N - 1) = N by omega] at he
  · unfold TestHelpers.retry
    rwa [Nat.zero_add] at hgo

/-- C5 witness: the always-failing action, retried with `maxAttempts = 2`,
fails with the raw error of its last attempt after exactly 2 invocations. -/
theorem TestHelpers.retry_exhausted_raw_error_witness :
    ∃ e, (fun _ => (Except.error "boom" : Except String Nat)) 2 = .error e ∧
      TestHelpers.retry (fun _ => (Except.error "boom" : Except String Nat)) 2 =
        (.error (some e), 2) :=
  TestHelpers.retry_exhausted_raw_error
    (fun _ => (Except.error "boom" : Except String Nat)) 2 (by omega)
    (fun i _ _ => ⟨"boom", rfl⟩)

/-- C10: calling `TestHelpers.retry` with `maxAttempts < 1` never executes
the loop body, so the action is never invoked (invocation count 0) and the
function throws its uninitialized `lastError`, i.e. the JavaScript value
`undefined` (modelled `Except.error none`), not an `Error` object. -/
theorem TestHelpers.retry_maxAttempts_lt_one (act : Nat → Except ε α)
    (N : Nat) (hN : N < 1) :
    TestHelpers.retry act N = (.error none, 0) := by
  have h0 : N = 0 := by omega
  subst h0
  rfl

/-- C10 witness: `maxAttempts = 0` on an always-failing action: the action is
never invoked and the thrown value is `undefined`. -/
theorem TestHelpers.retry_maxAttempts_lt_one_witness :
    TestHelpers.retry (fun _ => (Except.error "boom" : Except String Nat)) 0 =
      (.error none, 0) :=
  TestHelpers.retry_maxAttempts_lt_one
    (fun _ => (Except.error "boom" : Except String Nat)) 0 (by omega)

/-! ## Helper lemmas about the polling loop -/

namespace APITestUtils

theorem pollGo_throw (cond : Nat → CondResult ε) (timeout interval : Nat)
    (e : ε) :
    ∀ (d fuel k : Nat), d < fuel →
      cond (k + d) = .threw e →
      (∀ j, j < d → cond (k + j) = .isFalse) →
      (k + d) * interval < timeout →
      pollGo cond timeout interval fuel k = some (.propagated e) := by
  intro d
  induction d with
  | zero =>
    intro fuel k hfuel hthrow hbefore helapsed
    obtain ⟨f, rfl⟩ : ∃ f, fuel = f + 1 := ⟨fuel - 1, by omega⟩
    rw [Nat.add_zero] at hthrow helapsed
    simp [pollGo, helapsed, hthrow]
  | succ d ih =>
    intro fuel k hfuel hthrow hbefore helapsed
    obtain ⟨f, rfl⟩ : ∃ f, fuel = f + 1 := ⟨fuel - 1, by omega⟩
    have hguard : k * interval < timeout :=
      lt_of_le_of_lt (Nat.mul_le_mul (by omega) (le_refl interval)) helapsed
    have h0 : cond k = .isFalse := by simpa using hbefore 0 (by omega)
    have hstep : pollGo cond timeout interval (f + 1) k =
        pollGo cond timeout interval f (k + 1) := by
      simp [pollGo, hguard, h0]
    rw [hstep]
    refine ih f (k + 1) (by omega) ?_ ?_ ?_
    · rwa [show k + 1 + d = k + (d + 1) by omega]
    · intro j hj
      have := hbefore (j + 1) (by omega)
      rwa [show k + (j + 1) = k + 1 + j by omega] at this
    · rwa [show k + 1 + d = k + (d + 1) by omega]

theorem pollGo_allFalse (cond : Nat → CondResult ε) (timeout interval : Nat)
    (hint : 1 ≤ interval) (hfalse : ∀ j, cond j = .isFalse) :
    ∀ (fuel k : Nat), timeout + 1 ≤ fuel + k → 1 ≤ fuel →
      pollGo cond timeout interval fuel k = some (.conditionNotMet timeout) := by
  intro fuel
  induction fuel with
  | zero => intro k h1 h2; omega
  | succ f ih =>
    intro k h1 _
    by_cases hguard : k * interval < timeout
    · have hk : k ≤ k * interval := by
        calc k = k * 1 := by omega
        _ ≤ k * interval := Nat.mul_le_mul (le_refl k) hint
      have hstep : pollGo cond timeout interval (f + 1) k =
          pollGo cond timeout interval f (k + 1) := by
        simp [pollGo, hguard, hfalse k]
      rw [hstep]
      exact ih (k + 1) (by omega) (by omega)
    · simp [pollGo, hguard]

end APITestUtils

/-! ## Claim about `APITestUtils.waitForCondition` (C3) -/

/-- C3 counterexample: a predicate that throws on its very first evaluation,
polled with `timeout = 10` and `interval = 1`: the elapsed time (0) has not
remotely exceeded the timeout, yet the outcome is the **propagated**
predicate exception — polling does not continue, and no timeout error
carrying the thrown error is ever produced. -/
theorem APITestUtils.waitForCondition_throw_cex :
    APITestUtils.waitForCondition
        (fun _ => (APITestUtils.CondResult.threw "boom" :
          APITestUtils.CondResult String)) 10 1 =
      some (.propagated "boom") := rfl

/-- C3 amended: the source's `while` loop has no `try`/`catch`, so a
predicate evaluation that throws aborts polling immediately and the thrown
error propagates to the caller unchanged (even though the timeout has not
elapsed); when the predicate never returns true (always false), the
operation fails after the timeout with the generic condition-not-met
`Error` carrying only the timeout value — no `PollTimeoutError` class and no
attached last predicate-thrown error exist in the code. -/
theorem APITestUtils.waitForCondition_error_semantics (ε : Type) :
    (∀ (cond : Nat → APITestUtils.CondResult ε) (timeout interval k : Nat)
        (e : ε),
      1 ≤ interval →
      cond k = .threw e →
      (∀ j, j < k → cond j = .isFalse) →
      k * interval < timeout →
      APITestUtils.waitForCondition cond timeout interval =
        some (.propagated e)) ∧
    (∀ (cond : Nat → APITestUtils.CondResult ε) (timeout interval : Nat),
      1 ≤ interval →
      (∀ j, cond j = .isFalse) →
      APITestUtils.waitForCondition cond timeout interval =
        some (.conditionNotMet timeout)) := by
  constructor
  · intro cond timeout interval k e hint hthrow hbefore helapsed
    have hk : k ≤ k * interval := by
      calc k = k * 1 := by omega
      _ ≤ k * interval := Nat.mul_le_mul (le_refl k) hint
    refine APITestUtils.pollGo_throw cond timeout interval e k (timeout + 1) 0
      (by omega) (by simpa using hthrow) (by simpa using hbefore)
      (by simpa using helapsed)
  · intro cond timeout interval hint hfalse
    exact APITestUtils.pollGo_allFalse cond timeout interval hint hfalse
      (timeout + 1) 0 (by omega) (by omega)

/-- C3 witness: a predicate that is false on evaluation 0 and throws on
evaluation 1 under `timeout = 10`, `interval = 1`: the thrown error
propagates out of the poll. -/
theorem APITestUtils.waitForCondition_error_semantics_witness :
    APITestUtils.waitForCondition
        (fun n => if n = 0 then APITestUtils.CondResult.isFalse
                  else APITestUtils.CondResult.threw "boom") 10 1 =
      some (.propagated "boom") :=
  (APITestUtils.waitForCondition_error_semantics String).1
    (fun n => if n = 0 then APITestUtils.CondResult.isFalse
              else APITestUtils.CondResult.threw "boom")
    10 1 1 "boom" (by omega) rfl
    (fun j hj => by
      have hj0 : j = 0 := by omega
      subst hj0
      rfl)
    (by omega)

/-! ## Helper lemmas about required-key validation -/

namespace APITestUtils

theorem validateJSONStructure_ok_iff (bodyKeys : List String) :
    ∀ ks : List String,
      validateJSONStructure bodyKeys ks = .ok () ↔ ∀ k ∈ ks, k ∈ bodyKeys := by
  intro ks
  induction ks with
  | nil => simp [validateJSONStructure]
  | cons k rest ih =>
    by_cases h : k ∈ bodyKeys
    · simp [validateJSONStructure, h, ih]
    · simp [validateJSONStructure, h]

theorem validateJSONStructure_first_missing (bodyKeys : List String)
    (key : String) (rest : List String) (hmiss : key ∉ bodyKeys) :
    ∀ pre : List String, (∀ k ∈ pre, k ∈ bodyKeys) →
      validateJSONStructure bodyKeys (pre ++ key :: rest) =
        .error ("Missing key: " ++ key) := by
  intro pre
  induction pre with
  | nil => intro _; simp [validateJSONStructure, hmiss]
  | cons p ps ih =>
    intro hpre
    have hp : p ∈ bodyKeys := hpre p (by simp)
    simpa [validateJSONStructure, hp] using ih (fun k hk => hpre k (by simp [hk]))

end APITestUtils

/-! ## Claim about `APITestUtils.validateJSONStructure` (C4) -/

/-- C4 counterexample: validating a response whose body has none of the two
required keys `"name"` and `"price"` **throws** the assertion failure of the
first check (`Missing key: name`) — the violation is control flow, not
returned data, the second check is never evaluated, and only one of the two
contract breaches is surfaced. -/
theorem APITestUtils.validateJSONStructure_cex :
    APITestUtils.validateJSONStructure [] ["name", "price"] =
      Except.error "Missing key: name" := rfl

/-- C4 amended: validation succeeds exactly when every required key is
present; at the first required key missing from the body it throws the
assertion error naming that key alone (whatever required keys follow it),
so a response missing two required keys surfaces only the first miss. -/
theorem APITestUtils.validateJSONStructure_short_circuits
    (bodyKeys expectedKeys : List String) :
    (APITestUtils.validateJSONStructure bodyKeys expectedKeys = .ok () ↔
      ∀ k ∈ expectedKeys, k ∈ bodyKeys) ∧
    (∀ (pre : List String) (key : String) (rest : List String),
      expectedKeys = pre ++ key :: rest →
      (∀ k ∈ pre, k ∈ bodyKeys) →
      key ∉ bodyKeys →
      APITestUtils.validateJSONStructure bodyKeys expectedKeys =
        .error ("Missing key: " ++ key)) := by
  constructor
  · exact APITestUtils.validateJSONStructure_ok_iff bodyKeys expectedKeys
  · intro pre key rest hsplit hpre hmiss
    subst hsplit
    exact APITestUtils.validateJSONStructure_first_missing bodyKeys key rest
      hmiss pre hpre

/-- C4 witness: a body holding only `"id"`, validated against
`["id", "name", "price"]`: the first check passes and the call throws about
`"name"` only, never reaching `"price"`. -/
theorem APITestUtils.validateJSONStructure_short_circuits_witness :
    APITestUtils.validateJSONStructure ["id"] ["id", "name", "price"] =
      .error ("Missing key: " ++ "name") :=
  (APITestUtils.validateJSONStructure_short_circuits ["id"]
      ["id", "name", "price"]).2
    ["id"] "name" ["price"] rfl (by simp) (by simp)

/-! ## Helper lemmas about the metrics summary -/

namespace APITestUtils

theorem metrics_example_even :
    (createPerformanceMetrics [1, 2, 3, 4]).1 =
      ⟨some 1, some 4, some (5 / 2), some 3⟩ := by
  simp [createPerformanceMetrics, List.insertionSort, List.orderedInsert]
  norm_num

theorem metrics_example_singleton :
    (createPerformanceMetrics [5]).1 =
      ⟨some 5, some 5, some 5, some 5⟩ := by
  simp [createPerformanceMetrics, List.insertionSort, List.orderedInsert]

theorem createPerformanceMetrics_snd (xs : List ℚ) :
    (createPerformanceMetrics xs).2 = xs.insertionSort (· ≤ ·) := rfl

theorem createPerformanceMetrics_median (xs : List ℚ) :
    (createPerformanceMetrics xs).1.median =
      (xs.insertionSort (· ≤ ·)).get?
        ((xs.insertionSort (· ≤ ·)).length / 2) := rfl

end APITestUtils

/-! ## Claims about `APITestUtils.createPerformanceMetrics` (C1, C6, C7) -/

/-- C1 counterexample: the metrics summary over zero samples does not fail —
the call returns a record whose `avg` is the `NaN` of `sum / 0` (modelled
`none`) and whose `min` is `undefined` (`sorted[0]` on an empty array,
modelled `none`): the division by zero is silently produced. -/
theorem APITestUtils.createPerformanceMetrics_empty_cex :
    (APITestUtils.createPerformanceMetrics []).1.avg = none ∧
      (APITestUtils.createPerformanceMetrics []).1.min = none :=
  ⟨rfl, rfl⟩

/-- C1 amended: for the empty sequence of samples the operation returns
normally (there is no `EmptySampleSetError` anywhere in the code): the
result is the summary `{min: undefined, max: undefined, avg: NaN,
median: undefined}`, the `NaN` arising from the unguarded `sum / 0`, and
the caller's (empty) array is unchanged. -/
theorem APITestUtils.createPerformanceMetrics_empty :
    APITestUtils.createPerformanceMetrics [] =
      (⟨none, none, none, none⟩, []) := rfl

/-- C6 counterexample: `createPerformanceMetrics([1,2,3,4])` yields median
`sorted[Math.floor(4 / 2)] = sorted[2] = 3`, not the lower-middle element 2
the claim states. -/
theorem APITestUtils.createPerformanceMetrics_median_cex :
    (APITestUtils.createPerformanceMetrics [1, 2, 3, 4]).1.median ≠ some 2 ∧
      (APITestUtils.createPerformanceMetrics [1, 2, 3, 4]).1.median = some 3 := by
  have h := APITestUtils.metrics_example_even
  constructor
  · rw [show (APITestUtils.createPerformanceMetrics [1, 2, 3, 4]).1.median =
        some 3 by rw [h]]
    intro hc
    rw [Option.some_inj] at hc
    norm_num at hc
  · rw [h]

/-- C6 amended: for every sequence of even length `2 * m` (`m ≥ 1`), the
median is the **upper**-middle element — the element at index `m` — of the
sequence sorted ascending (index `⌊n / 2⌋` of the sorted array); in
particular `createPerformanceMetrics([1,2,3,4])` yields min 1, max 4, mean
5/2, and median 3, and `createPerformanceMetrics([5])` yields min 5, max 5,
mean 5, median 5. -/
theorem APITestUtils.createPerformanceMetrics_median_upper
    (xs l : List ℚ) (m : Nat)
    (hperm : l.Perm xs) (hsorted : l.Sorted (· ≤ ·))
    (hlen : xs.length = 2 * m) (hm : 1 ≤ m) :
    (APITestUtils.createPerformanceMetrics xs).1.median = l.get? m ∧
      (APITestUtils.createPerformanceMetrics [1, 2, 3, 4]).1 =
        ⟨some 1, some 4, some (5 / 2), some 3⟩ ∧
      (APITestUtils.createPerformanceMetrics [5]).1 =
        ⟨some 5, some 5, some 5, some 5⟩ := by
  refine ⟨?_, APITestUtils.metrics_example_even,
    APITestUtils.metrics_example_singleton⟩
  have hs : xs.insertionSort (· ≤ ·) = l :=
    List.eq_of_perm_of_sorted
      ((List.perm_insertionSort _ xs).trans hperm.symm)
      (List.sorted_insertionSort _ xs) hsorted
  rw [APITestUtils.createPerformanceMetrics_median, hs, hperm.length_eq, hlen,
    show 2 * m / 2 = m by omega]

/-- C6 witness: `[1, 2, 3, 4]` is its own sorted permutation of length
`2 * 2`; the theorem instantiated there computes the median as the element
at index 2 of the sorted sequence, `some 3`. -/
theorem APITestUtils.createPerformanceMetrics_median_upper_witness :
    (APITestUtils.createPerformanceMetrics [1, 2, 3, 4]).1.median =
      ([1, 2, 3, 4] : List ℚ).get? 2 :=
  (APITestUtils.createPerformanceMetrics_median_upper
      [1, 2, 3, 4] [1, 2, 3, 4] 2 (List.Perm.refl _)
      (by simp [List.sorted_cons]; norm_num)
      (by simp) (by omega)).1

/-- C7 counterexample: computing the metrics of `[2, 1]` leaves the caller's
array holding `[1, 2]` — not its original contents `[2, 1]`: the in-place
`Array.prototype.sort` mutated the caller's sequence. -/
theorem APITestUtils.createPerformanceMetrics_mutation_cex :
    (APITestUtils.createPerformanceMetrics [2, 1]).2 = [1, 2] ∧
      ([1, 2] : List ℚ) ≠ [2, 1] := by
  constructor
  · simp [APITestUtils.createPerformanceMetrics, List.insertionSort,
      List.orderedInsert]
  · intro hc
    rw [List.cons.injEq] at hc
    norm_num at hc

/-- C7 amended: the summary computation sorts the caller's array **in
place**: after the call the caller's sequence holds the same elements (a
permutation of the original) but in ascending order — it is unchanged only
when it was already sorted. -/
theorem APITestUtils.createPerformanceMetrics_sorts_in_place (xs : List ℚ) :
    ((APITestUtils.createPerformanceMetrics xs).2).Perm xs ∧
      ((APITestUtils.createPerformanceMetrics xs).2).Sorted (· ≤ ·) :=
  ⟨List.perm_insertionSort _ xs, List.sorted_insertionSort _ xs⟩

/-! ## Claims about `BaseAPIClient.buildURL` (C8, C9) -/

/-- C8 counterexample: two parameter objects holding the same key→value
mapping `{a ↦ 1, b ↦ 2}` but inserted in different orders produce different
serialized URLs (`/e?a=1&b=2` vs `/e?b=2&a=1`): the serialization is not
independent of insertion order. -/
theorem BaseAPIClient.buildURL_order_cex :
    BaseAPIClient.buildURL "" "/e" (some [("a", "1"), ("b", "2")]) ≠
      BaseAPIClient.buildURL "" "/e" (some [("b", "2"), ("a", "1")]) := by
  decide

/-- C8 amended: the serialization is deterministic in the **ordered entry
sequence** — `URLSearchParams` emits the entries in the object's insertion
order, performing no key reordering — so it coincides with the spec's
stable-key-ordered serialization exactly on those calls whose entries were
inserted in ascending key order; mappings equal as key→value functions but
inserted in different orders can serialize differently. -/
theorem BaseAPIClient.buildURL_insertion_order (b e : String)
    (ps : List (String × String))
    (hsorted : ps.Sorted (fun p q => p.1 ≤ q.1)) :
    BaseAPIClient.buildURL b e (some ps) =
      b ++ e ++ "?" ++ BaseAPIClient.specStableKeyOrderSerialize ps := by
  unfold BaseAPIClient.buildURL BaseAPIClient.specStableKeyOrderSerialize
  rw [hsorted.insertionSort_eq]

/-- C8 witness: entries inserted in ascending key order, where the
insertion-order serialization and the stable-key-ordered serialization
agree. -/
theorem BaseAPIClient.buildURL_insertion_order_witness :
    BaseAPIClient.buildURL "" "/e" (some [("a", "1"), ("b", "2")]) =
      "" ++ "/e" ++ "?" ++
        BaseAPIClient.specStableKeyOrderSerialize [("a", "1"), ("b", "2")] :=
  BaseAPIClient.buildURL_insertion_order "" "/e" [("a", "1"), ("b", "2")]
    (by simp [List.sorted_cons]; decide)

/-- C9: whenever a params object is supplied, `buildURL` appends exactly one
more `?` to whatever `?` characters `baseURL`, `endpoint` and the serialized
parameters already contain — with no check of the endpoint — so the default
`ProductsAPI.getAllProducts` call against the `/index.php?route=api/product`
endpoint produces a URL containing two `?` characters. -/
theorem BaseAPIClient.buildURL_double_question_mark (b e : String)
    (ps : List (String × String)) :
    (BaseAPIClient.buildURL b e (some ps)).data.count '?' =
        b.data.count '?' + e.data.count '?' + 1 +
          (BaseAPIClient.urlSearchParamsToString ps).data.count '?' ∧
      (ProductsAPI.getAllProductsURL "").data.count '?' = 2 := by
  constructor
  · simp [BaseAPIClient.buildURL, List.count_append]
    omega
  · decide
